import Mathlib

/-!
Shallow embedding of src/fork.go (package fork): a self-fork primitive.
A `Function` descriptor wraps an exec.Cmd; `NewFork` constructs it,
`Function.Fork` validates arguments, builds the environment and a temp file
holding gob-serialized arguments, and starts the child; `Function.ReFork`
rebuilds a fresh command and relaunches; `Function.Wait` reaps the child.

OS effects (environment snapshot, os.Executable, ioutil.TempFile, process
start and wait results) are passed in explicitly through an `OsEnv` record,
so every operation is a pure function of descriptor state, arguments and
that record. Go's reflect layer is modelled by coarse kinds and runtime
type descriptors; a Go interface value carrying no type (untyped nil) is
`ArgVal.nilA`, whose `reflect.TypeOf` is `none`.
-/

namespace GoFork

/-- Coarse runtime kinds, mirroring the constructors of reflect.Kind that
the claims need (reflect.Invalid is the kind of the zero Value). -/
inductive Kind where
  | Invalid
  | Bool
  | Int
  | String
  | Struct
  | Slice
  | Func
  | Ptr
deriving DecidableEq, Repr

/-- reflect.Kind.String() for the kinds modelled here. -/
def kindStr : Kind → String
  | .Invalid => "invalid"
  | .Bool => "bool"
  | .Int => "int"
  | .String => "string"
  | .Struct => "struct"
  | .Slice => "slice"
  | .Func => "func"
  | .Ptr => "ptr"

/-- A non-function runtime type: its reflect String() name and its kind. -/
structure ParamType where
  name : String
  kind : Kind
deriving DecidableEq, Repr

/-- Default runtime type used with List.getD in statements. -/
def dfltType : ParamType := ⟨"", .Invalid⟩

/-- A function runtime type: the ordered declared parameter types
(reflect Type.NumIn / Type.In). -/
structure GoFunc where
  params : List ParamType
deriving DecidableEq, Repr

/-- reflect Type.String() of a function type, e.g. func(int, string). -/
def GoFunc.str (g : GoFunc) : String :=
  "func(" ++ String.intercalate ", " (g.params.map ParamType.name) ++ ")"

/-- The interface value passed as the target of NewFork: the untyped nil
interface, a value of some non-function type, or a function value carrying
its signature. -/
inductive TargetVal where
  | nilV
  | ofVal (t : ParamType)
  | ofFunc (g : GoFunc)
deriving DecidableEq, Repr

/-- reflect.ValueOf(v).Kind(): the zero Value (from an untyped nil) has
kind Invalid; otherwise the dynamic type's kind. -/
def TargetVal.rkind : TargetVal → Kind
  | .nilV => .Invalid
  | .ofVal t => t.kind
  | .ofFunc _ => .Func

/-- The signature of a function value (the source only reads f.fn.Type()
on descriptors built from function values). -/
def TargetVal.ftype : TargetVal → GoFunc
  | .ofFunc g => g
  | _ => ⟨[]⟩

/-- An interface value supplied as a call argument: either the untyped nil
interface or a value of some dynamic type. -/
inductive ArgVal where
  | nilA
  | val (t : ParamType)
deriving DecidableEq, Repr

/-- reflect.TypeOf: nil interface has no runtime type descriptor. -/
def ArgVal.typeOf : ArgVal → Option ParamType
  | .nilA => none
  | .val t => some t

/-- A parent-process file handle: the parent's standard streams or some
other open file. -/
inductive FileRef where
  | stdin
  | stdout
  | stderr
  | named (s : String)
deriving DecidableEq, Repr

/-- What an io.Reader/io.Writer field of exec.Cmd holds after the
assignments in this package: the zero interface, a nil *os.File wrapped in
the interface (assigning a nil typed pointer to an interface yields a
non-nil interface), or an actual file. -/
inductive IoVal where
  | nilInterface
  | typedNil
  | file (f : FileRef)
deriving DecidableEq, Repr

/-- Wrapping a descriptor stream field (a possibly nil *os.File) into an
exec.Cmd interface field. -/
def ioOf : Option FileRef → IoVal
  | none => .typedNil
  | some f => .file f

/-- The descriptor the started child actually receives on a standard
stream, per os/exec and syscall semantics: a nil interface makes exec open
the null device; a typed-nil *os.File reaches os.StartProcess, whose
File.Fd() on nil returns ^uintptr(0), i.e. fd -1, which the fork child
closes; a real file is bound through. -/
inductive ChildFd where
  | devNull
  | closed
  | bound (f : FileRef)
deriving DecidableEq, Repr

/-- Effective child-side binding of an exec.Cmd stream field. -/
def childFd : IoVal → ChildFd
  | .nilInterface => .devNull
  | .typedNil => .closed
  | .file f => .bound f

/-- Opaque operating-system-specific process attributes
(syscall.SysProcAttr), passed through unmodified. -/
structure SysAttr where
  tag : Nat
deriving DecidableEq, Repr

/-- Abstract captured exit information (os.ProcessState). -/
structure ProcState where
  code : Nat
deriving DecidableEq, Repr

/-- Outcome of exec.Cmd.Wait on a started, not-yet-waited command:
a clean exit, a non-zero exit (state recorded, error returned), or an
OS-level wait failure (no state recorded). -/
inductive WaitRes where
  | success (st : ProcState)
  | exitErr (st : ProcState) (msg : String)
  | osErr (msg : String)
deriving DecidableEq, Repr

/-- The OS facts an operation consults, passed explicitly: the parent
environment snapshot (os.Environ), the os.Executable answer (none models
its error case, in which the discarded-error assignment leaves the path
empty), os.Args[0], the ioutil.TempFile result (none models creation
failure, in which the returned *os.File is nil), whether and with what pid
Command.Start succeeds, and the Command.Wait outcome. -/
structure OsEnv where
  environ : List String
  executable : Option String
  argv0 : String
  tempFile : Option String
  startOk : Bool
  pid : Nat
  startErrMsg : String
  waitRes : WaitRes
deriving DecidableEq, Repr

/-- Modelled from the spec: the two environment-variable names of the
argument channel (one carries the routing name, the other the serialized
arguments file path). The source refers to nameVar and argsVar declared in
a repository file not under src/; the spec fixes only that they are two
distinct variables additive to the parent environment. -/
def nameVar : String := "GOFORK_NAME"

/-- Modelled from the spec: see nameVar. -/
def argsVar : String := "GOFORK_ARGS"

/-- The exec.Cmd fields this package touches. process and processState
model exec.Cmd.Process and exec.Cmd.ProcessState. -/
structure Cmd where
  path : String
  args : List String
  stdin : IoVal
  stdout : IoVal
  stderr : IoVal
  sysProcAttr : Option SysAttr
  env : List String
  process : Option Nat
  processState : Option ProcState
deriving DecidableEq, Repr

/-- The zero value exec.Cmd\x7b\x7d. -/
def Cmd.zero : Cmd :=
  { path := "", args := [], stdin := .nilInterface, stdout := .nilInterface,
    stderr := .nilInterface, sysProcAttr := none, env := [],
    process := none, processState := none }

/-- exec.Cmd.Start: fails if the command was already started, otherwise
starts the child (success and pid supplied by the OS record) and records
the process handle. -/
def Cmd.start (os : OsEnv) (c : Cmd) : Except String Cmd :=
  if c.process.isSome then .error "exec: already started"
  else if os.startOk then .ok { c with process := some os.pid }
  else .error os.startErrMsg

/-- exec.Cmd.Wait: fails if not started or already waited; otherwise the
OS outcome decides: on a clean or non-zero exit the ProcessState is
recorded (a non-zero exit still returns an error), on an OS-level failure
nothing is recorded. Returns the mutated command and the error, if any. -/
def Cmd.wait (os : OsEnv) (c : Cmd) : Cmd × Option String :=
  if c.process.isNone then (c, some "exec: not started")
  else if c.processState.isSome then (c, some "exec: Wait was already called")
  else
    match os.waitRes with
    | .success st => ({ c with processState := some st }, none)
    | .exitErr st m => ({ c with processState := some st }, some m)
    | .osErr m => (c, some m)

/-- The Function struct of src/fork.go: descriptor state in source order.
fn is the reflect.Value captured at construction. -/
structure Function where
  sysProcAttr : Option SysAttr
  process : Option Nat
  processState : Option ProcState
  name : String
  stdout : Option FileRef
  stderr : Option FileRef
  stdin : Option FileRef
  command : Cmd
  fn : TargetVal
deriving DecidableEq, Repr

/-- NewFork (src/fork.go lines 45-65): builds a fresh exec.Cmd whose path
is the os.Executable answer (error discarded), whose args default to
[os.Args[0]] when none are given, and whose streams are the parent's; then
rejects a non-function target by returning nil. -/
def NewFork (os : OsEnv) (n : String) (fn : TargetVal) (args : List String) :
    Option Function :=
  let cmd : Cmd :=
    { Cmd.zero with
      path := os.executable.getD ""
      args := if args.length = 0 then [os.argv0] else args
      stderr := .file .stderr
      stdout := .file .stdout
      stdin := .file .stdin }
  if fn.rkind ≠ .Func then none
  else
    some { sysProcAttr := none, process := none, processState := none,
           name := n, stdout := none, stderr := none, stdin := none,
           command := cmd, fn := fn }

/-- Result of validateArgs: the returned error, nil, or a runtime panic
(calling Kind() on the nil reflect.Type of an untyped nil argument). -/
inductive VOutcome where
  | ok
  | err (msg : String)
  | panicked
deriving DecidableEq, Repr

/-- The loop of validateArgs (src/fork.go lines 140-144): at each position,
reflect.TypeOf(args[i]).Kind() panics when args[i] is the untyped nil
interface; otherwise a kind inequality returns the mismatch error whose
format string contains the literal (1) and prints the supplied kind, then
the declared kind. The trailing case is the out-of-range index, unreachable
under the arity guard. -/
def validateLoop : List ParamType → List ArgVal → VOutcome
  | [], _ => .ok
  | p :: ps, a :: rest =>
    match a.typeOf with
    | none => .panicked
    | some ta =>
      if p.kind ≠ ta.kind then
        .err ("argument mismatch (1) " ++ kindStr ta.kind ++ " != " ++ kindStr p.kind)
      else validateLoop ps rest
  | _ :: _, [] => .panicked

/-- Function.validateArgs (src/fork.go lines 135-146): arity check naming
the callable signature, then the per-position kind comparison. -/
def Function.validateArgs (f : Function) (args : List ArgVal) : VOutcome :=
  if args.length ≠ f.fn.ftype.params.length then
    .err ("incorrect number of args for: " ++ f.fn.ftype.str)
  else validateLoop f.fn.ftype.params args

/-- Result of a launch operation: the Go return value or a panic, the
descriptor as mutated so far, and the temp-file write effect (path and the
sequence of argument values gob-encoded into it, in order; per-value
encoding errors are discarded by the source). -/
structure ForkResult where
  outcome : VOutcome
  state : Function
  written : Option (String × List ArgVal)
deriving DecidableEq, Repr

/-- Function.Fork (src/fork.go lines 68-93). Validation failures return
before any mutation. Then the descriptor stream fields and attributes are
copied onto the command, the environment is rebuilt as the parent snapshot
plus the routing-name variable, and ioutil.TempFile is called. The source
appends the argsVar entry using af.Name() BEFORE checking the TempFile
error, so a creation failure dereferences a nil *os.File and panics; on
success the path variable is appended, the arguments are encoded into the
file, and Command.Start runs; only a successful start records the process
handle on the descriptor. -/
def Function.Fork (os : OsEnv) (f : Function) (args : List ArgVal) : ForkResult :=
  match f.validateArgs args with
  | .err m => ⟨.err m, f, none⟩
  | .panicked => ⟨.panicked, f, none⟩
  | .ok =>
    let cmd : Cmd :=
      { f.command with
        stderr := ioOf f.stderr
        stdout := ioOf f.stdout
        stdin := ioOf f.stdin
        sysProcAttr := f.sysProcAttr
        env := os.environ ++ [nameVar ++ "=" ++ f.name] }
    match os.tempFile with
    | none => ⟨.panicked, { f with command := cmd }, none⟩
    | some tmp =>
      let cmd := { cmd with env := cmd.env ++ [argsVar ++ "=" ++ tmp] }
      match cmd.start os with
      | .error m => ⟨.err m, { f with command := cmd }, some (tmp, args)⟩
      | .ok c => ⟨.ok, { f with command := c, process := c.process }, some (tmp, args)⟩

/-- Function.ReFork (src/fork.go lines 96-122): saves the previous command,
replaces it by a zero exec.Cmd whose path is re-resolved and whose args are
the previous args, then repeats the post-validation body of Fork verbatim
(no argument validation happens). -/
def Function.ReFork (os : OsEnv) (f : Function) (args : List ArgVal) : ForkResult :=
  let previous := f.command
  let cmd0 : Cmd := { Cmd.zero with path := os.executable.getD "", args := previous.args }
  let cmd : Cmd :=
    { cmd0 with
      stderr := ioOf f.stderr
      stdout := ioOf f.stdout
      stdin := ioOf f.stdin
      sysProcAttr := f.sysProcAttr
      env := os.environ ++ [nameVar ++ "=" ++ f.name] }
  match os.tempFile with
  | none => ⟨.panicked, { f with command := cmd }, none⟩
  | some tmp =>
    let cmd := { cmd with env := cmd.env ++ [argsVar ++ "=" ++ tmp] }
    match cmd.start os with
    | .error m => ⟨.err m, { f with command := cmd }, some (tmp, args)⟩
    | .ok c => ⟨.ok, { f with command := c, process := c.process }, some (tmp, args)⟩

/-- Function.Wait (src/fork.go lines 125-131): delegates to Command.Wait;
on error returns it (Command-internal mutations persist); on success
copies Command.ProcessState onto the descriptor. -/
def Function.Wait (os : OsEnv) (f : Function) : VOutcome × Function :=
  match f.command.wait os with
  | (c, some m) => (.err m, { f with command := c })
  | (c, none) => (.ok, { f with command := c, processState := c.processState })

/-- Descriptor states reachable through the public operations: constructed
by NewFork, then transformed by any sequence of Fork, ReFork and Wait
calls under arbitrary OS behavior. -/
inductive Reached : Function → Prop where
  | init (os : OsEnv) (n : String) (v : TargetVal) (cargs : List String)
      (f : Function) : NewFork os n v cargs = some f → Reached f
  | fork (os : OsEnv) (args : List ArgVal) (f : Function) :
      Reached f → Reached (f.Fork os args).state
  | refork (os : OsEnv) (args : List ArgVal) (f : Function) :
      Reached f → Reached (f.ReFork os args).state
  | wait (os : OsEnv) (f : Function) :
      Reached f → Reached (f.Wait os).2

/-- The lifecycle invariant of a descriptor: whenever the underlying
command has a recorded process, so does the descriptor, and the terminal
state is only ever present when the process handle is. -/
def Inv (f : Function) : Prop :=
  (f.command.process.isSome → f.process.isSome) ∧
  (f.processState.isSome → f.process.isSome)

/-! Concrete fixtures used by witnesses and counterexamples. -/

/-- The runtime type int. -/
def tInt : ParamType := ⟨"int", .Int⟩

/-- The runtime type string. -/
def tStr : ParamType := ⟨"string", .String⟩

/-- A struct type main.A. -/
def tStructA : ParamType := ⟨"main.A", .Struct⟩

/-- A different struct type main.B of the same kind. -/
def tStructB : ParamType := ⟨"main.B", .Struct⟩

/-- Signature func(int, string). -/
def gIS : GoFunc := ⟨[tInt, tStr]⟩

/-- Signature func(string, int). -/
def gSI : GoFunc := ⟨[tStr, tInt]⟩

/-- Signature func(main.A). -/
def gStructA : GoFunc := ⟨[tStructA]⟩

/-- Signature func(). -/
def gNone : GoFunc := ⟨[]⟩

/-- A benign OS record: executable resolves, temp file creation succeeds,
start succeeds with pid 7, wait sees a clean exit. -/
def os0 : OsEnv :=
  { environ := ["HOME=/root", "PATH=/bin"]
    executable := some "/bin/prog"
    argv0 := "prog"
    tempFile := some "/tmp/gofork_123"
    startOk := true
    pid := 7
    startErrMsg := "fork/exec /bin/prog: permission denied"
    waitRes := .success ⟨0⟩ }

/-- Same OS record, but ioutil.TempFile fails. -/
def osNoTmp : OsEnv := { os0 with tempFile := none }

/-- Same OS record, but Command.Start fails. -/
def osNoStart : OsEnv := { os0 with startOk := false }

/-- The descriptor NewFork builds under os0 for a given name and target
signature with no explicit argv. -/
def mkF (nm : String) (g : GoFunc) : Function :=
  { sysProcAttr := none, process := none, processState := none,
    name := nm, stdout := none, stderr := none, stdin := none,
    command :=
      { path := "/bin/prog", args := ["prog"], stdin := .file .stdin,
        stdout := .file .stdout, stderr := .file .stderr,
        sysProcAttr := none, env := [], process := none, processState := none },
    fn := .ofFunc g }

/-- An int-valued argument. -/
def argInt : ArgVal := .val tInt

/-- A string-valued argument. -/
def argStr : ArgVal := .val tStr

/-- A main.A-valued argument. -/
def argA : ArgVal := .val tStructA

/-- A main.B-valued argument. -/
def argB : ArgVal := .val tStructB

/-! Helper lemmas about the validation loop. -/

/-- When every position carries a typed value of the declared kind, the
loop accepts. -/
theorem validateLoop_ok_of_kinds :
    ∀ (ps : List ParamType) (args : List ArgVal),
      args.length = ps.length →
      (∀ j, j < ps.length → ∃ t, (args.getD j .nilA).typeOf = some t ∧
        t.kind = (ps.getD j dfltType).kind) →
      validateLoop ps args = .ok
  | [], _, _, _ => rfl
  | _ :: _, [], h, _ => by simp at h
  | p :: ps, a :: rest, h, hk => by
    obtain ⟨t, ht, hkind⟩ := hk 0 (Nat.succ_pos _)
    simp only [List.getD_cons_zero] at ht hkind
    have ih := validateLoop_ok_of_kinds ps rest (by simpa using h)
      (fun j hj => by
        simpa only [List.getD_cons_succ] using
          hk (j + 1) (by simp only [List.length_cons]; omega))
    simp [validateLoop, ht, hkind, ih]

/-- When the first offending position holds a typed value of the wrong
kind, the loop reports the mismatch error built from the two kinds. -/
theorem validateLoop_first_mismatch :
    ∀ (ps : List ParamType) (args : List ArgVal) (i : Nat) (t : ParamType),
      args.length = ps.length → i < ps.length →
      (∀ j, j < i → ∃ u, (args.getD j .nilA).typeOf = some u ∧
        u.kind = (ps.getD j dfltType).kind) →
      (args.getD i .nilA).typeOf = some t →
      t.kind ≠ (ps.getD i dfltType).kind →
      validateLoop ps args =
        .err ("argument mismatch (1) " ++ kindStr t.kind ++ " != " ++
          kindStr (ps.getD i dfltType).kind)
  | [], _, i, _, _, hi, _, _, _ => by simp at hi
  | _ :: _, [], _, _, h, _, _, _, _ => by simp at h
  | p :: ps, a :: rest, 0, t, h, _, _, ht, hne => by
    simp only [List.getD_cons_zero] at ht hne ⊢
    have hne2 : p.kind ≠ t.kind := fun e => hne e.symm
    simp [validateLoop, ht, hne2]
  | p :: ps, a :: rest, i + 1, t, h, hi, hpre, ht, hne => by
    obtain ⟨u, hu, hukind⟩ := hpre 0 (Nat.succ_pos _)
    simp only [List.getD_cons_zero] at hu hukind
    simp only [List.getD_cons_succ] at ht hne ⊢
    have ih := validateLoop_first_mismatch ps rest i t (by simpa using h)
      (by simp only [List.length_cons] at hi; omega)
      (fun j hj => by
        simpa only [List.getD_cons_succ] using
          hpre (j + 1) (by omega))
      ht hne
    simp [validateLoop, hu, hukind, ih]

/-- When the first offending position holds the untyped nil interface, the
loop panics. -/
theorem validateLoop_first_nil :
    ∀ (ps : List ParamType) (args : List ArgVal) (i : Nat),
      args.length = ps.length → i < ps.length →
      (∀ j, j < i → ∃ u, (args.getD j .nilA).typeOf = some u ∧
        u.kind = (ps.getD j dfltType).kind) →
      (args.getD i .nilA).typeOf = none →
      validateLoop ps args = .panicked
  | [], _, i, _, hi, _, _ => by simp at hi
  | _ :: _, [], _, h, _, _, _ => by simp at h
  | p :: ps, a :: rest, 0, h, _, _, ht => by
    simp only [List.getD_cons_zero] at ht
    simp [validateLoop, ht]
  | p :: ps, a :: rest, i + 1, h, hi, hpre, ht => by
    obtain ⟨u, hu, hukind⟩ := hpre 0 (Nat.succ_pos _)
    simp only [List.getD_cons_zero] at hu hukind
    simp only [List.getD_cons_succ] at ht
    have ih := validateLoop_first_nil ps rest i (by simpa using h)
      (by simp only [List.length_cons] at hi; omega)
      (fun j hj => by
        simpa only [List.getD_cons_succ] using hpre (j + 1) (by omega))
      ht
    simp [validateLoop, hu, hukind, ih]

/-! Shape lemmas: how each operation can change the runtime-state fields. -/

/-- The fields of a descriptor NewFork actually returns. -/
theorem NewFork_some_fields (os : OsEnv) (n : String) (v : TargetVal)
    (cargs : List String) (f : Function) (hf : NewFork os n v cargs = some f) :
    f.process = none ∧ f.processState = none ∧ f.command.process = none ∧
    f.name = n ∧ f.fn = v ∧ f.stdin = none ∧ f.stdout = none ∧ f.stderr = none ∧
    f.command.stdin = .file .stdin ∧ f.command.stdout = .file .stdout ∧
    f.command.stderr = .file .stderr := by
  by_cases hv : v.rkind = Kind.Func
  · simp only [NewFork, hv, ne_eq, not_true_eq_false, if_false, ite_false,
      Option.some.injEq] at hf
    subst hf
    simp [Cmd.zero]
  · simp [NewFork, hv] at hf

/-- Fork either fails, leaving the handle fields as they were, or starts
the child and records pid fields; the terminal state is never touched. -/
theorem Fork_state_shape (os : OsEnv) (f : Function) (args : List ArgVal) :
    ((f.Fork os args).outcome ≠ .ok ∧
     (f.Fork os args).state.process = f.process ∧
     (f.Fork os args).state.processState = f.processState ∧
     (f.Fork os args).state.command.process = f.command.process) ∨
    ((f.Fork os args).outcome = .ok ∧
     (f.Fork os args).state.process = some os.pid ∧
     (f.Fork os args).state.processState = f.processState ∧
     (f.Fork os args).state.command.process = some os.pid) := by
  unfold Function.Fork
  cases hv : f.validateArgs args
  case ok =>
    cases ht : os.tempFile
    case none => simp
    case some tmp =>
      cases hp : f.command.process
      case some p => left; simp [Cmd.start, hp]
      case none =>
        cases hs : os.startOk
        case false => left; simp [Cmd.start, hp, hs]
        case true => right; simp [Cmd.start, hp, hs]
  all_goals simp

/-- ReFork either fails on a freshly zeroed command, or starts the child
and records pid fields; the terminal state is never touched. -/
theorem ReFork_state_shape (os : OsEnv) (f : Function) (args : List ArgVal) :
    ((f.ReFork os args).outcome ≠ .ok ∧
     (f.ReFork os args).state.process = f.process ∧
     (f.ReFork os args).state.processState = f.processState ∧
     (f.ReFork os args).state.command.process = none) ∨
    ((f.ReFork os args).outcome = .ok ∧
     (f.ReFork os args).state.process = some os.pid ∧
     (f.ReFork os args).state.processState = f.processState ∧
     (f.ReFork os args).state.command.process = some os.pid) := by
  unfold Function.ReFork
  cases ht : os.tempFile
  case none => simp [Cmd.zero]
  case some tmp =>
    cases hs : os.startOk
    case false => left; simp [Cmd.start, Cmd.zero, hs]
    case true => right; simp [Cmd.start, Cmd.zero, hs]

/-- Wait either fails, leaving the descriptor handle fields unchanged, or
succeeds on a started command and records a terminal state; the process
handle itself is never touched. -/
theorem Wait_state_shape (os : OsEnv) (f : Function) :
    ((f.Wait os).1 ≠ .ok ∧
     (f.Wait os).2.process = f.process ∧
     (f.Wait os).2.processState = f.processState ∧
     (f.Wait os).2.command.process = f.command.process) ∨
    ((f.Wait os).1 = .ok ∧
     (f.Wait os).2.process = f.process ∧
     f.command.process.isSome ∧
     (f.Wait os).2.command.process = f.command.process ∧
     ∃ st, (f.Wait os).2.processState = some st) := by
  unfold Function.Wait Cmd.wait
  cases hp : f.command.process
  case none => left; simp [hp]
  case some p =>
    cases hps : f.command.processState
    case some st => left; simp [hp, hps]
    case none =>
      cases hw : os.waitRes
      case success st => right; simp [hp, hps, hw]
      case exitErr st m => left; simp [hp, hps, hw]
      case osErr m => left; simp [hp, hps, hw]

/-- On a successful Fork, the exact command configuration that started:
the descriptor stream fields wrapped into the command, the attributes
copied, the environment extended by the two channel variables, and the
serialized payload written to the temp file. -/
theorem Fork_ok_shape (os : OsEnv) (f : Function) (args : List ArgVal)
    (hok : (f.Fork os args).outcome = .ok) :
    ∃ tmp, os.tempFile = some tmp ∧
      (f.Fork os args).state.command =
        { f.command with
          stderr := ioOf f.stderr, stdout := ioOf f.stdout, stdin := ioOf f.stdin,
          sysProcAttr := f.sysProcAttr,
          env := os.environ ++ [nameVar ++ "=" ++ f.name, argsVar ++ "=" ++ tmp],
          process := some os.pid } ∧
      (f.Fork os args).written = some (tmp, args) ∧
      (f.Fork os args).state.process = some os.pid := by
  unfold Function.Fork at hok ⊢
  cases hv : f.validateArgs args <;> simp only [hv] at hok ⊢
  case err m => simp at hok
  case panicked => simp at hok
  case ok =>
    cases htf : os.tempFile <;> simp only [htf] at hok ⊢
    case none => simp at hok
    case some tmp =>
      cases hp : f.command.process
      case some p => simp [Cmd.start, hp] at hok
      case none =>
        cases hs : os.startOk
        case false => simp [Cmd.start, hp, hs] at hok
        case true =>
          refine ⟨tmp, rfl, ?_, ?_, ?_⟩ <;>
            simp [Cmd.start, hp, hs, List.append_assoc]

/-- Every reachable descriptor satisfies the lifecycle invariant. -/
theorem reached_Inv : ∀ f, Reached f → Inv f := by
  intro f h
  induction h with
  | init os n v cargs f hf =>
    obtain ⟨h1, h2, h3, -⟩ := NewFork_some_fields os n v cargs f hf
    exact ⟨fun h => by rw [h3] at h; simp at h, fun h => by rw [h2] at h; simp at h⟩
  | fork os args f _ ih =>
    rcases Fork_state_shape os f args with ⟨_, h1, h2, h3⟩ | ⟨_, h1, h2, h3⟩
    · exact ⟨fun h => by rw [h3] at h; exact h1 ▸ ih.1 h,
             fun h => by rw [h2] at h; exact h1 ▸ ih.2 h⟩
    · exact ⟨fun _ => by simp [h1], fun _ => by simp [h1]⟩
  | refork os args f _ ih =>
    rcases ReFork_state_shape os f args with ⟨_, h1, h2, h3⟩ | ⟨_, h1, h2, h3⟩
    · exact ⟨fun h => by rw [h3] at h; simp at h,
             fun h => by rw [h2] at h; exact h1 ▸ ih.2 h⟩
    · exact ⟨fun _ => by simp [h1], fun _ => by simp [h1]⟩
  | wait os f _ ih =>
    rcases Wait_state_shape os f with ⟨_, h1, h2, h3⟩ | ⟨_, h1, hs, h3, st, h4⟩
    · exact ⟨fun h => by rw [h3] at h; exact h1 ▸ ih.1 h,
             fun h => by rw [h2] at h; exact h1 ▸ ih.2 h⟩
    · exact ⟨fun h => by rw [h3] at h; exact h1 ▸ ih.1 h,
             fun _ => h1 ▸ ih.1 hs⟩

/-! The claims. -/

/-- Claim C1: the spec says a temp-file creation failure is returned
synchronously as a launch error. The code instead appends the argsVar
entry using the nil *os.File returned by the failed ioutil.TempFile before
checking its error, so the operation panics; no process is started and the
handle stays as it was. This theorem evaluates the code at the failing
input, exhibiting the divergence from the spec. -/
theorem fork_tempfile_failure (os : OsEnv) (f : Function) (args : List ArgVal)
    (htmp : os.tempFile = none) (hok : f.validateArgs args = .ok) :
    (f.Fork os args).outcome = .panicked ∧
    (f.Fork os args).state.process = f.process ∧
    (f.Fork os args).written = none := by
  unfold Function.Fork
  simp [hok, htmp]

/-- Witness for C1 at a concrete descriptor and failing OS record. -/
theorem fork_tempfile_failure_witness :
    ((mkF "worker" gIS).Fork osNoTmp [argInt, argStr]).outcome = .panicked ∧
    ((mkF "worker" gIS).Fork osNoTmp [argInt, argStr]).state.process =
      (mkF "worker" gIS).process ∧
    ((mkF "worker" gIS).Fork osNoTmp [argInt, argStr]).written = none :=
  fork_tempfile_failure osNoTmp (mkF "worker" gIS) [argInt, argStr] rfl rfl

/-- Claim C5: an argument count different from the declared parameter
count always makes Fork return the incorrect-number-of-args error naming
the callable signature, leave the descriptor untouched, and write no
payload, so no process is started. -/
theorem fork_arity_error (os : OsEnv) (f : Function) (g : GoFunc)
    (args : List ArgVal) (hfn : f.fn = .ofFunc g)
    (hlen : args.length ≠ g.params.length) :
    f.Fork os args =
      ⟨.err ("incorrect number of args for: " ++ g.str), f, none⟩ := by
  have hv : f.validateArgs args =
      .err ("incorrect number of args for: " ++ g.str) := by
    unfold Function.validateArgs
    rw [hfn]
    dsimp only [TargetVal.ftype]
    rw [if_pos hlen]
  unfold Function.Fork
  rw [hv]

/-- Witness for C5: func(int, string) called with one argument. -/
theorem fork_arity_error_witness :
    (mkF "worker" gIS).Fork os0 [argInt] =
      ⟨.err ("incorrect number of args for: " ++ gIS.str),
        mkF "worker" gIS, none⟩ :=
  fork_arity_error os0 (mkF "worker" gIS) gIS [argInt] rfl (by decide)

/-- Claim C6: validation compares only coarse kinds: any argument list of
the right length whose per-position dynamic kinds match the declared
parameter kinds passes validation, whatever the concrete types are. -/
theorem validate_kind_only (f : Function) (g : GoFunc) (args : List ArgVal)
    (hfn : f.fn = .ofFunc g) (hlen : args.length = g.params.length)
    (hk : ∀ j, j < g.params.length → ∃ t, (args.getD j .nilA).typeOf = some t ∧
      t.kind = (g.params.getD j dfltType).kind) :
    f.validateArgs args = .ok := by
  unfold Function.validateArgs
  rw [hfn]
  dsimp only [TargetVal.ftype]
  rw [if_neg (not_not_intro hlen)]
  exact validateLoop_ok_of_kinds g.params args hlen hk

/-- Witness for C6: a func(main.A) target accepts a main.B value, a
distinct concrete type of the same struct kind. -/
theorem validate_kind_only_witness :
    (mkF "w3" gStructA).validateArgs [argB] = .ok :=
  validate_kind_only (mkF "w3" gStructA) gStructA [argB] rfl rfl
    (fun j hj => by
      cases j with
      | zero => exact ⟨tStructB, rfl, rfl⟩
      | succ n => simp [gStructA] at hj)

/-- Claim C7: on a successful Fork the child environment is exactly the
parent environment snapshot plus the routing-name variable and the
temp-file-path variable, and that file holds the serialized arguments in
order. -/
theorem fork_env_and_payload (os : OsEnv) (f : Function) (args : List ArgVal)
    (tmp : String) (htmp : os.tempFile = some tmp)
    (hok : (f.Fork os args).outcome = .ok) :
    (f.Fork os args).state.command.env =
      os.environ ++ [nameVar ++ "=" ++ f.name, argsVar ++ "=" ++ tmp] ∧
    (f.Fork os args).written = some (tmp, args) := by
  obtain ⟨tmp2, htmp2, hcmd, hw, -⟩ := Fork_ok_shape os f args hok
  rw [htmp] at htmp2
  cases htmp2
  rw [hcmd, hw]
  exact ⟨rfl, rfl⟩

/-- Witness for C7 at a concrete launch. -/
theorem fork_env_and_payload_witness :
    ((mkF "worker" gIS).Fork os0 [argInt, argStr]).state.command.env =
      os0.environ ++ [nameVar ++ "=" ++ "worker",
        argsVar ++ "=" ++ "/tmp/gofork_123"] ∧
    ((mkF "worker" gIS).Fork os0 [argInt, argStr]).written =
      some ("/tmp/gofork_123", [argInt, argStr]) :=
  fork_env_and_payload os0 (mkF "worker" gIS) [argInt, argStr]
    "/tmp/gofork_123" rfl rfl

/-- Claim C9: NewFork returns the nil sentinel (and nothing else) for
every non-function target, and for a function-kind target returns a
descriptor with the given name and target bound. -/
theorem newfork_target_check (os : OsEnv) (n : String) (v : TargetVal)
    (cargs : List String) :
    (v.rkind ≠ .Func → NewFork os n v cargs = none) ∧
    (v.rkind = .Func →
      ∃ f, NewFork os n v cargs = some f ∧ f.name = n ∧ f.fn = v ∧
        f.process = none ∧ f.processState = none) := by
  constructor
  · intro hv
    simp [NewFork, hv]
  · intro hv
    refine ⟨{ sysProcAttr := none, process := none, processState := none,
              name := n, stdout := none, stderr := none, stdin := none,
              command :=
                { path := os.executable.getD ""
                  args := if cargs.length = 0 then [os.argv0] else cargs
                  stdin := .file .stdin, stdout := .file .stdout,
                  stderr := .file .stderr, sysProcAttr := none,
                  env := [], process := none, processState := none },
              fn := v }, ?_, rfl, rfl, rfl, rfl⟩
    simp [NewFork, Cmd.zero, hv]

/-- Witness for C9: an int value yields the sentinel; a function target
yields a bound descriptor. -/
theorem newfork_target_check_witness :
    NewFork os0 "w" (.ofVal tInt) [] = none ∧
    ∃ f, NewFork os0 "worker" (.ofFunc gIS) [] = some f ∧ f.name = "worker" ∧
      f.fn = .ofFunc gIS ∧ f.process = none ∧ f.processState = none :=
  ⟨(newfork_target_check os0 "w" (.ofVal tInt) []).1 (by decide),
   (newfork_target_check os0 "worker" (.ofFunc gIS) []).2 rfl⟩

/-- Counterexample to C2 as stated: the mismatch error does not identify
the position of the offending argument. A func(string, int) target fed
two ints mismatches at position 0, a func(int, string) target fed the
same two ints mismatches at position 1, yet both produce the identical
message, whose marker is the fixed literal (1) from the format string. -/
theorem mismatch_position_counterexample :
    (mkF "wA" gSI).validateArgs [argInt, argInt] =
      .err "argument mismatch (1) int != string" ∧
    (mkF "wB" gIS).validateArgs [argInt, argInt] =
      .err "argument mismatch (1) int != string" ∧
    argInt.typeOf = some tInt ∧
    (gSI.params.getD 0 dfltType).kind ≠ tInt.kind ∧
    (gIS.params.getD 0 dfltType).kind = tInt.kind ∧
    (gIS.params.getD 1 dfltType).kind ≠ tInt.kind :=
  ⟨rfl, rfl, rfl, by decide, rfl, by decide⟩

/-- Claim C2 as amended: when the first offending position i holds a typed
value whose kind differs from the declared parameter kind (all earlier
positions kind-matching), Fork fails with the argument-mismatch error
naming the supplied kind then the declared kind, with the fixed literal
marker (1) that does not reflect i; the descriptor is untouched and no
payload is written, so no process is started. -/
theorem fork_mismatch_error (os : OsEnv) (f : Function) (g : GoFunc)
    (args : List ArgVal) (i : Nat) (t : ParamType)
    (hfn : f.fn = .ofFunc g)
    (hlen : args.length = g.params.length)
    (hi : i < g.params.length)
    (hpre : ∀ j, j < i → ∃ u, (args.getD j .nilA).typeOf = some u ∧
      u.kind = (g.params.getD j dfltType).kind)
    (ht : (args.getD i .nilA).typeOf = some t)
    (hne : t.kind ≠ (g.params.getD i dfltType).kind) :
    f.Fork os args =
      ⟨.err ("argument mismatch (1) " ++ kindStr t.kind ++ " != " ++
        kindStr (g.params.getD i dfltType).kind), f, none⟩ := by
  have hv : f.validateArgs args =
      .err ("argument mismatch (1) " ++ kindStr t.kind ++ " != " ++
        kindStr (g.params.getD i dfltType).kind) := by
    unfold Function.validateArgs
    rw [hfn]
    dsimp only [TargetVal.ftype]
    rw [if_neg (not_not_intro hlen)]
    exact validateLoop_first_mismatch g.params args i t hlen hi hpre ht hne
  unfold Function.Fork
  rw [hv]

/-- Witness for the amended C2: func(int, string) called with (3, 4). -/
theorem fork_mismatch_error_witness :
    (mkF "worker" gIS).Fork os0 [argInt, argInt] =
      ⟨.err ("argument mismatch (1) " ++ kindStr tInt.kind ++ " != " ++
        kindStr (gIS.params.getD 1 dfltType).kind),
        mkF "worker" gIS, none⟩ :=
  fork_mismatch_error os0 (mkF "worker" gIS) gIS [argInt, argInt] 1 tInt
    rfl rfl (by decide)
    (fun j hj => by
      cases j with
      | zero => exact ⟨tInt, rfl, rfl⟩
      | succ n => omega)
    rfl (by decide)

/-- Counterexample to C10 as stated: an argument list of matching length
containing the untyped nil does not always abort; a kind mismatch at an
earlier position returns the ordinary validation error before the nil is
reached. Here func(int, string) is called with a string first and nil
second. -/
theorem nil_argument_counterexample :
    (mkF "worker" gIS).validateArgs [argStr, .nilA] =
      .err "argument mismatch (1) string != int" ∧
    ((mkF "worker" gIS).Fork os0 [argStr, .nilA]).outcome ≠ .panicked ∧
    [argStr, ArgVal.nilA].length = gIS.params.length ∧
    ArgVal.nilA.typeOf = none ∧
    0 < gIS.params.length :=
  ⟨rfl, by decide, rfl, rfl, by decide⟩

/-- Claim C10 as amended: when the first offending position holds the
untyped nil interface (all earlier positions kind-matching), validateArgs
calls Kind() on a nil runtime type descriptor and the operation aborts by
panic instead of returning a validation error value; the descriptor is
untouched and nothing is written. -/
theorem fork_nil_arg_aborts (os : OsEnv) (f : Function) (g : GoFunc)
    (args : List ArgVal) (i : Nat)
    (hfn : f.fn = .ofFunc g)
    (hlen : args.length = g.params.length)
    (hi : i < g.params.length)
    (hpre : ∀ j, j < i → ∃ u, (args.getD j .nilA).typeOf = some u ∧
      u.kind = (g.params.getD j dfltType).kind)
    (ht : (args.getD i .nilA).typeOf = none) :
    f.Fork os args = ⟨.panicked, f, none⟩ := by
  have hv : f.validateArgs args = .panicked := by
    unfold Function.validateArgs
    rw [hfn]
    dsimp only [TargetVal.ftype]
    rw [if_neg (not_not_intro hlen)]
    exact validateLoop_first_nil g.params args i hlen hi hpre ht
  unfold Function.Fork
  rw [hv]

/-- Witness for the amended C10: func(int, string) called with (3, nil)
panics inside validation. -/
theorem fork_nil_arg_aborts_witness :
    (mkF "worker" gIS).Fork os0 [argInt, .nilA] =
      ⟨.panicked, mkF "worker" gIS, none⟩ :=
  fork_nil_arg_aborts os0 (mkF "worker" gIS) gIS [argInt, .nilA] 1
    rfl rfl (by decide)
    (fun j hj => by
      cases j with
      | zero => exact ⟨tInt, rfl, rfl⟩
      | succ n => omega)
    rfl

/-- Claim C3 (code bug): the struct field comments and the spec say unset
stream fields default to the parent streams, and NewFork does install the
parent streams on the command; but Fork then overwrites them with the
descriptor stream fields, which are still nil, so the command that starts
carries typed-nil files and the child standard descriptors end up closed,
not bound to the parent streams. This theorem evaluates the code on a
descriptor whose stream fields were left unset. -/
theorem fork_default_streams (os os2 : OsEnv) (n : String) (g : GoFunc)
    (cargs : List String) (f : Function) (args : List ArgVal)
    (hf : NewFork os n (.ofFunc g) cargs = some f)
    (hok : (f.Fork os2 args).outcome = .ok) :
    f.command.stdin = .file .stdin ∧ f.command.stdout = .file .stdout ∧
    f.command.stderr = .file .stderr ∧
    (f.Fork os2 args).state.command.stdin = .typedNil ∧
    (f.Fork os2 args).state.command.stdout = .typedNil ∧
    (f.Fork os2 args).state.command.stderr = .typedNil ∧
    childFd (f.Fork os2 args).state.command.stdin = .closed ∧
    childFd (f.Fork os2 args).state.command.stdout = .closed ∧
    childFd (f.Fork os2 args).state.command.stderr = .closed := by
  obtain ⟨-, -, -, -, -, hin, hout, herr, ci, co, ce⟩ :=
    NewFork_some_fields os n _ cargs f hf
  obtain ⟨tmp, -, hcmd, -, -⟩ := Fork_ok_shape os2 f args hok
  rw [hcmd]
  refine ⟨ci, co, ce, ?_, ?_, ?_, ?_, ?_, ?_⟩ <;>
    simp [hin, hout, herr, ioOf, childFd]

/-- Witness for C3 at a concrete descriptor with unset stream fields. -/
theorem fork_default_streams_witness :
    (mkF "worker" gIS).command.stdin = .file .stdin ∧
    (mkF "worker" gIS).command.stdout = .file .stdout ∧
    (mkF "worker" gIS).command.stderr = .file .stderr ∧
    ((mkF "worker" gIS).Fork os0 [argInt, argStr]).state.command.stdin = .typedNil ∧
    ((mkF "worker" gIS).Fork os0 [argInt, argStr]).state.command.stdout = .typedNil ∧
    ((mkF "worker" gIS).Fork os0 [argInt, argStr]).state.command.stderr = .typedNil ∧
    childFd ((mkF "worker" gIS).Fork os0 [argInt, argStr]).state.command.stdin = .closed ∧
    childFd ((mkF "worker" gIS).Fork os0 [argInt, argStr]).state.command.stdout = .closed ∧
    childFd ((mkF "worker" gIS).Fork os0 [argInt, argStr]).state.command.stderr = .closed :=
  fork_default_streams os0 os0 "worker" gIS [] (mkF "worker" gIS)
    [argInt, argStr] rfl rfl

/-- Claim C4: ReFork launches from a brand-new command configuration that
reuses only the previous argv (path re-resolved, handle and state zeroed)
together with the descriptor's current stream and attribute fields, and
from there behaves exactly as steps 2-5 of Fork; it consults the target
signature nowhere, so no argument validation happens; and a successful
relaunch records the new pid as the descriptor's handle. -/
theorem refork_is_fork_tail :
    (∀ (os : OsEnv) (f : Function) (args : List ArgVal),
      Function.validateArgs
        { f with command :=
            { Cmd.zero with
              path := os.executable.getD ""
              args := f.command.args } } args = .ok →
      f.ReFork os args =
        Function.Fork os
          { f with command :=
              { Cmd.zero with
                path := os.executable.getD ""
                args := f.command.args } } args) ∧
    (∀ (os : OsEnv) (f : Function) (args : List ArgVal) (g : TargetVal),
      (Function.ReFork os { f with fn := g } args).outcome =
        (f.ReFork os args).outcome ∧
      (Function.ReFork os { f with fn := g } args).written =
        (f.ReFork os args).written) ∧
    (∀ (os : OsEnv) (f : Function) (args : List ArgVal),
      (f.ReFork os args).outcome = .ok →
      (f.ReFork os args).state.process = some os.pid) := by
  refine ⟨?_, ?_, ?_⟩
  · intro os f args hv
    unfold Function.Fork
    rw [hv]
    rfl
  · intro os f args g
    unfold Function.ReFork Cmd.start
    cases htf : os.tempFile
    · exact ⟨rfl, rfl⟩
    · cases hs : os.startOk <;> exact ⟨rfl, rfl⟩
  · intro os f args h
    rcases ReFork_state_shape os f args with ⟨hn, -⟩ | ⟨-, h2, -⟩
    · exact absurd h hn
    · exact h2

/-- Witness for C4 at a previously-launched descriptor configuration. -/
theorem refork_is_fork_tail_witness :
    ((mkF "worker" gIS).ReFork os0 [argInt, argStr] =
      Function.Fork os0
        { mkF "worker" gIS with
          command :=
            { Cmd.zero with
              path := os0.executable.getD ""
              args := (mkF "worker" gIS).command.args } }
        [argInt, argStr]) ∧
    ((mkF "worker" gIS).ReFork os0 [argInt, argStr]).state.process = some 7 :=
  ⟨refork_is_fork_tail.1 os0 (mkF "worker" gIS) [argInt, argStr] rfl,
   refork_is_fork_tail.2.2 os0 (mkF "worker" gIS) [argInt, argStr] rfl⟩

/-- Claim C8: the launch/wait lifecycle of the descriptor runtime state:
a fresh descriptor has no handle and no terminal state; a successful Fork
records the pid, an unsuccessful one leaves the handle as it was; neither
Fork nor ReFork ever touches the terminal state, so it stays empty before
Wait; a successful Wait records a terminal state, an unsuccessful one
leaves it unchanged; and on every descriptor reachable through the public
operations the terminal state is never present without the handle. -/
theorem lifecycle_runtime_state :
    (∀ (os : OsEnv) (n : String) (v : TargetVal) (cargs : List String)
      (f : Function), NewFork os n v cargs = some f →
      f.process = none ∧ f.processState = none) ∧
    (∀ (os : OsEnv) (f : Function) (args : List ArgVal),
      (f.Fork os args).outcome = .ok →
      (f.Fork os args).state.process = some os.pid) ∧
    (∀ (os : OsEnv) (f : Function) (args : List ArgVal),
      (f.Fork os args).outcome ≠ .ok →
      (f.Fork os args).state.process = f.process) ∧
    (∀ (os : OsEnv) (f : Function) (args : List ArgVal),
      (f.Fork os args).state.processState = f.processState) ∧
    (∀ (os : OsEnv) (f : Function) (args : List ArgVal),
      (f.ReFork os args).state.processState = f.processState) ∧
    (∀ (os : OsEnv) (f : Function), (f.Wait os).1 = .ok →
      ∃ st, (f.Wait os).2.processState = some st) ∧
    (∀ (os : OsEnv) (f : Function), (f.Wait os).1 ≠ .ok →
      (f.Wait os).2.processState = f.processState) ∧
    (∀ f, Reached f → f.processState.isSome → f.process.isSome) := by
  refine ⟨?_, ?_, ?_, ?_, ?_, ?_, ?_, ?_⟩
  · intro os n v cargs f hf
    obtain ⟨h1, h2, -⟩ := NewFork_some_fields os n v cargs f hf
    exact ⟨h1, h2⟩
  · intro os f args h
    rcases Fork_state_shape os f args with ⟨hn, -⟩ | ⟨-, h2, -⟩
    · exact absurd h hn
    · exact h2
  · intro os f args h
    rcases Fork_state_shape os f args with ⟨-, h2, -⟩ | ⟨ho, -⟩
    · exact h2
    · exact absurd ho h
  · intro os f args
    rcases Fork_state_shape os f args with ⟨-, -, h3, -⟩ | ⟨-, -, h3, -⟩ <;>
      exact h3
  · intro os f args
    rcases ReFork_state_shape os f args with ⟨-, -, h3, -⟩ | ⟨-, -, h3, -⟩ <;>
      exact h3
  · intro os f h
    rcases Wait_state_shape os f with ⟨hn, -⟩ | ⟨-, -, -, -, st, h4⟩
    · exact absurd h hn
    · exact ⟨st, h4⟩
  · intro os f h
    rcases Wait_state_shape os f with ⟨-, -, h2, -⟩ | ⟨ho, -⟩
    · exact h2
    · exact absurd ho h
  · intro f hr hps
    exact (reached_Inv f hr).2 hps

/-- Witness for C8: a fresh descriptor, a successful launch (terminal
state still empty), then a successful wait, exercising the invariant on a
reachable state whose terminal state is present. -/
theorem lifecycle_runtime_state_witness :
    ((mkF "w0" gNone).process = none ∧ (mkF "w0" gNone).processState = none) ∧
    ((mkF "w0" gNone).Fork os0 []).state.process = some 7 ∧
    ((mkF "w0" gNone).Fork os0 []).state.processState =
      (mkF "w0" gNone).processState ∧
    ((mkF "w0" gNone).ReFork os0 []).state.processState =
      (mkF "w0" gNone).processState ∧
    (∃ st, ((((mkF "w0" gNone).Fork os0 []).state.Wait os0).2).processState =
      some st) ∧
    ((((mkF "w0" gNone).Fork os0 []).state.Wait os0).2).process.isSome :=
  ⟨lifecycle_runtime_state.1 os0 "w0" (.ofFunc gNone) [] (mkF "w0" gNone) rfl,
   lifecycle_runtime_state.2.1 os0 (mkF "w0" gNone) [] rfl,
   lifecycle_runtime_state.2.2.2.1 os0 (mkF "w0" gNone) [],
   lifecycle_runtime_state.2.2.2.2.1 os0 (mkF "w0" gNone) [],
   lifecycle_runtime_state.2.2.2.2.2.1 os0 ((mkF "w0" gNone).Fork os0 []).state
     rfl,
   lifecycle_runtime_state.2.2.2.2.2.2.2 _
     (Reached.wait os0 _ (Reached.fork os0 [] _
       (Reached.init os0 "w0" (.ofFunc gNone) [] _ rfl)))
     rfl⟩

end GoFork
